import Mathlib

/-!
Shallow embedding of the CI/CD log-analysis engine of
`src/unnamed/part_003` (`analyzeGitLabJobLogs` and its helpers
`prioritizeIssues`, `analyzeFinalJobContext`, `generateAdditionalInsights`
and `generateSmartSolutions`), together with proofs of the behavioural
claims about it.

Strings are modelled by Lean `String`; all character-level operations are
implemented over `String.data` so that every definition evaluates inside
the kernel.  JavaScript regular expressions are embedded pattern by
pattern: `RegExp.test` calls become decidable existence matchers, and the
`String.match` calls whose capture groups the engine reads become
deterministic scanners implementing the leftmost-match/greedy semantics of
the concrete patterns appearing in the source.
-/

namespace LogEngine

/-- JS `String.prototype.includes`: contiguous-substring test on the
character list. -/
def containsSub (needle : List Char) : List Char → Bool
  | [] => needle.isEmpty
  | c :: t => needle.isPrefixOf (c :: t) || containsSub needle t

/-- `s.includes(pat)` from JavaScript. -/
def jsIncludes (s pat : String) : Bool := containsSub pat.data s.data

/-- JS `String.prototype.toLowerCase` (ASCII case folding). -/
def lowerStr (s : String) : String := ⟨s.data.map Char.toLower⟩

/-- JS `logs.split('\n')`. -/
def splitLinesAux : List Char → List Char → List String
  | [], acc => [⟨acc.reverse⟩]
  | c :: cs, acc =>
      if c = '\n' then String.mk acc.reverse :: splitLinesAux cs []
      else splitLinesAux cs (c :: acc)

/-- JS `logs.split('\n')` on a `String`. -/
def splitLines (s : String) : List String := splitLinesAux s.data []

/-- JS `String.prototype.trim`. -/
def trimStr (s : String) : String :=
  ⟨((s.data.dropWhile Char.isWhitespace).reverse.dropWhile Char.isWhitespace).reverse⟩

/-- JS `Set.add` on an insertion-ordered set modelled as a duplicate-free
list: adding an existing element is a no-op, a new element goes to the
back. -/
def setAdd (l : List String) (x : String) : List String :=
  if x ∈ l then l else l ++ [x]

/-- `[...new Set(l)]` from JavaScript: deduplication keeping the first
occurrence of each element, preserving insertion order. `seen` is the set
accumulated so far. -/
def jsSetDedupAux : List String → List String → List String
  | _, [] => []
  | seen, x :: xs =>
      if x ∈ seen then jsSetDedupAux seen xs
      else x :: jsSetDedupAux (x :: seen) xs

/-- `[...new Set(l)]` from JavaScript. -/
def jsSetDedup (l : List String) : List String := jsSetDedupAux [] l

/-! ### Regular-expression machinery

Each `RegExp.test` call in the source is an unanchored existence test; a
regular expression built from literals and character-class gaps matches a
string iff the string decomposes as
`prefix ++ piece₁ ++ ... ++ pieceₙ ++ suffix`.  `matchPieces` decides
exactly that decomposition property. -/

/-- One piece of an embedded regular expression: a literal, or a gap of at
least `min` characters all belonging to a class. -/
inductive Piece where
  | lit (s : String)
  | gap (p : Char → Bool) (min : Nat)

/-- Exact-decomposition matcher for a sequence of pieces. -/
def matchPieces : List Piece → List Char → Bool
  | [], cs => cs.isEmpty
  | Piece.lit s :: ps, cs =>
      s.data.isPrefixOf cs && matchPieces ps (cs.drop s.data.length)
  | Piece.gap p min :: ps, cs =>
      (List.range (cs.length + 1)).any fun n =>
        decide (min ≤ n) && (cs.take n).all p && matchPieces ps (cs.drop n)

/-- The class matched by `.` in a JS regex without the `s` flag: any
character other than a line terminator. -/
def dotC (c : Char) : Bool := c ≠ '\n' && c ≠ '\r'

/-- The class `[^\n]`. -/
def notNlC (c : Char) : Bool := c ≠ '\n'

/-- The class `\s` (whitespace). -/
def wsC (c : Char) : Bool := c.isWhitespace

/-- The class `\w` (word characters). -/
def wordC (c : Char) : Bool := c.isAlphanum || c = '_'

/-- The class `[\w\.]`. -/
def wordDotC (c : Char) : Bool := wordC c || c = '.'

/-- Unanchored `RegExp.test` for a case-sensitive pattern. -/
def testPat (pieces : List Piece) (line : String) : Bool :=
  matchPieces (Piece.gap (fun _ => true) 0 :: (pieces ++ [Piece.gap (fun _ => true) 0]))
    line.data

/-- Unanchored `RegExp.test` for an `/i` pattern: the line is
case-folded, the literals of `pieces` are given already lower-cased. -/
def testPatCI (pieces : List Piece) (line : String) : Bool :=
  testPat pieces (lowerStr line)

/-- Case-insensitive substring test, the embedding of `/lit/i.test(line)`
for a purely literal pattern `lit` (given lower-cased). -/
def hasCI (line : String) (lit : String) : Bool :=
  containsSub lit.data (lowerStr line).data

/-! ### The rule catalog (`patterns` in the source) -/

/-- One entry of the rule catalog: a pattern test, an issue name and a
remediation suggestion. -/
structure ErrorRule where
  test : String → Bool
  issue : String
  solution : String

/-- Rule catalog: ordered association of technology category to its rules
(`Object.entries(patterns)` iterates in this insertion order). -/
abbrev Catalog := List (String × List ErrorRule)

def dockerRules : List ErrorRule := [
  ⟨fun l => testPatCI [.lit "image", .gap dotC 0, .lit "not", .gap wsC 0, .lit "found"] l,
    "Docker image not found", "Verify the image name and ensure it exists in your registry"⟩,
  ⟨fun l => hasCI l "permission denied",
    "Docker permission issue", "Check if the runner has proper permissions to pull/push images"⟩,
  ⟨fun l => hasCI l "no space left on device",
    "Disk space issue", "Clean up unnecessary images or increase disk space on the runner"⟩,
  ⟨fun l => hasCI l "unauthorized" || hasCI l "authentication required",
    "Docker registry authentication failure",
    "Check your registry credentials and ensure they are correctly configured in your CI/CD settings"⟩,
  ⟨fun l => hasCI l "network timeout",
    "Docker network timeout", "Check network connectivity between your runner and the registry"⟩,
  ⟨fun l => hasCI l "failed to compute cache key",
    "Docker build cache issue", "Try clearing the Docker build cache or fixing cache configuration"⟩]

def kubernetesRules : List ErrorRule := [
  ⟨fun l => hasCI l "error validating" || hasCI l "validation failed",
    "Kubernetes manifest validation failure",
    "Check your YAML files for syntax errors or invalid configurations"⟩,
  ⟨fun l => testPatCI [.lit "forbidden: ", .gap notNlC 1, .lit "cannot ", .gap wordC 1, .lit " resource"] l,
    "Kubernetes permission issue", "Verify service account permissions and RBAC settings"⟩,
  ⟨fun l => testPatCI [.lit "admission webhook", .gap dotC 0, .lit "denied"] l,
    "Admission controller rejection",
    "Review the webhook policy constraints and adjust your resources accordingly"⟩,
  ⟨fun l => hasCI l "crashloopbackoff",
    "Pod crash loop", "Check container logs for application errors causing restart loops"⟩,
  ⟨fun l => hasCI l "imagepullbackoff",
    "Failed to pull container image", "Verify image name, tag and registry access"⟩,
  ⟨fun l => testPatCI [.lit "unhealthy", .gap dotC 0, .lit "probe failed"] l,
    "Health check failure",
    "Review your health check configuration and ensure your application is responding correctly"⟩]

def terraformRules : List ErrorRule := [
  ⟨fun l => hasCI l "error applying plan",
    "Terraform apply failure", "Review the specific resource errors and verify your configurations"⟩,
  ⟨fun l => hasCI l "error: configuring terraform aws provider",
    "AWS provider configuration issue", "Check AWS credentials and region settings"⟩,
  ⟨fun l => testPatCI [.lit "error: error creating ", .gap dotC 0, .lit " resourcenotfoundexception"] l,
    "Resource not found", "Verify the specified resource exists or check permissions"⟩,
  ⟨fun l => hasCI l "error: no valid credential sources found",
    "Provider authentication failure", "Verify your authentication configuration for the provider"⟩,
  ⟨fun l => hasCI l "error: error acquiring the state lock",
    "State lock issue",
    "Check if a previous Terraform operation is still running or manually release the state lock"⟩,
  ⟨fun l => hasCI l "error: module not installed",
    "Missing module", "Run terraform init to install required modules"⟩]

def gcpRules : List ErrorRule := [
  ⟨fun l => hasCI l "gcloud: command not found",
    "gcloud CLI not installed", "Ensure gcloud CLI is installed in your CI environment"⟩,
  ⟨fun l => testPatCI [.lit "error: (gcloud.", .gap wordDotC 1, .lit ")"] l,
    "gcloud command error", "Check gcloud command parameters and permissions"⟩,
  ⟨fun l => testPatCI [.lit "forbidden: ", .gap dotC 0, .lit " does not have ", .gap dotC 0, .lit " permission"] l,
    "GCP permission issue", "Verify service account has the required IAM roles"⟩,
  ⟨fun l => testPatCI [.lit "not_found: the resource ", .gap dotC 0, .lit " was not found"] l,
    "GCP resource not found", "Check if the referenced resource exists or is accessible"⟩,
  ⟨fun l => testPatCI [.lit "already_exists: ", .gap dotC 0] l,
    "Resource already exists", "Handle existing resource or use unique names"⟩,
  ⟨fun l => testPatCI [.lit "failed_precondition: ", .gap dotC 0] l,
    "Precondition failure", "Ensure all prerequisites for the operation are met"⟩,
  ⟨fun l => testPatCI [.lit "quota_exceeded: ", .gap dotC 0] l,
    "GCP quota exceeded", "Request quota increase or optimize resource usage"⟩]

def npmRules : List ErrorRule := [
  ⟨fun l => hasCI l "npm err! code e404",
    "NPM package not found", "Verify package name and version in package.json"⟩,
  ⟨fun l => hasCI l "npm err! code enoent",
    "File or directory not found", "Check file paths in your package.json scripts"⟩,
  ⟨fun l => hasCI l "npm err! code elifecycle",
    "NPM script execution failure", "Examine the specific script that failed in package.json"⟩,
  ⟨fun l => testPatCI [.lit "npm err! ", .gap dotC 0, .lit " failed to fetch"] l,
    "Network issue fetching package", "Check network connectivity to npm registry"⟩,
  ⟨fun l => testPatCI [.lit "npm err! ", .gap dotC 0, .lit " etimedout"] l,
    "Connection timeout", "Check network connectivity or try using a different registry"⟩,
  ⟨fun l => testPatCI [.lit "npm err! ", .gap dotC 0, .lit " incompatible with this version"] l,
    "Dependency compatibility issue", "Update your dependencies or use compatible versions"⟩]

def pythonRules : List ErrorRule := [
  ⟨fun l => hasCI l "modulenotfounderror: no module named",
    "Python module not found",
    "Ensure all dependencies are in requirements.txt and properly installed"⟩,
  ⟨fun l => hasCI l "syntaxerror: ",
    "Python syntax error", "Fix syntax errors in your Python code"⟩,
  ⟨fun l => hasCI l "importerror: ",
    "Python import error", "Check your import statements and ensure packages are installed"⟩,
  ⟨fun l => hasCI l "attributeerror: ",
    "Python attribute error", "Verify object attributes exist before accessing them"⟩,
  ⟨fun l => hasCI l "typeerror: ",
    "Python type error", "Check type compatibility in your function calls and operations"⟩,
  ⟨fun l => hasCI l "indexerror: ",
    "Python index error", "Ensure array indices are within bounds"⟩,
  ⟨fun l => hasCI l "keyerror: ",
    "Python key error", "Verify dictionary keys exist before accessing them"⟩]

def javaRules : List ErrorRule := [
  ⟨fun l => hasCI l "could not find or load main class",
    "Java class not found", "Verify classpath and package structure"⟩,
  ⟨fun l => hasCI l "compilation failure",
    "Java compilation error", "Fix compile-time errors in your Java code"⟩,
  ⟨fun l => hasCI l "outofmemoryerror",
    "Java out of memory error",
    "Increase memory allocation for the Java process or optimize memory usage"⟩,
  ⟨fun l => hasCI l "noclassdeffounderror",
    "Class definition not found", "Check your classpath and ensure all dependencies are included"⟩,
  ⟨fun l => hasCI l "classnotfoundexception",
    "Class not found", "Verify the class exists in your build path"⟩,
  ⟨fun l => hasCI l "unsupportedclassversionerror",
    "Unsupported Java version", "Compile for a compatible Java version or update your JDK"⟩]

def generalRules : List ErrorRule := [
  ⟨fun l => hasCI l "command not found",
    "Command not available", "Ensure the required CLI tools are installed in your CI environment"⟩,
  ⟨fun l => hasCI l "connection timed out",
    "Network timeout", "Check network connectivity and endpoint availability"⟩,
  ⟨fun l => hasCI l "authentication failed",
    "Authentication error", "Verify credentials and access tokens"⟩,
  ⟨fun l => hasCI l "insufficient memory",
    "Memory issue", "Increase memory allocation for your job"⟩,
  ⟨fun l => hasCI l "quota exceeded",
    "Resource quota exceeded", "Optimize resource utilization or request quota increase"⟩,
  ⟨fun l => hasCI l "permission denied",
    "Permission issue", "Check file or resource permissions"⟩,
  ⟨fun l => hasCI l "invalid argument",
    "Invalid argument", "Review command arguments for correctness"⟩,
  ⟨fun l => hasCI l "file not found",
    "File not found", "Verify file paths and existence"⟩]

/-- The full rule catalog, in the key insertion order of the `patterns`
object literal. -/
def patterns : Catalog :=
  [("docker", dockerRules), ("kubernetes", kubernetesRules),
   ("terraform", terraformRules), ("gcp", gcpRules), ("npm", npmRules),
   ("python", pythonRules), ("java", javaRules), ("general", generalRules)]

/-! ### Metadata scanners (`String.match` calls of the first pass)

Each scanner implements leftmost-match semantics: start positions are
tried left to right, and at a start position the concrete pattern shape
makes greedy matching deterministic (every greedy sub-run is followed by a
character that cannot belong to the run's class, so backtracking into a
run can never succeed). -/

/-- Maximal run of characters satisfying `p`: `(run, rest)`. -/
def takeRun (p : Char → Bool) (cs : List Char) : List Char × List Char :=
  (cs.takeWhile p, cs.dropWhile p)

/-- Consume a case-sensitive literal, returning the rest. -/
def matchLit (lit : List Char) (cs : List Char) : Option (List Char) :=
  if lit.isPrefixOf cs then some (cs.drop lit.length) else none

/-- Consume a case-insensitive literal (given lower-cased), returning the
rest. -/
def matchLitCI (lit : List Char) (cs : List Char) : Option (List Char) :=
  if lit.isPrefixOf ((cs.take lit.length).map Char.toLower) then
    some (cs.drop lit.length)
  else none

/-- The class `[0-9a-f]` under `/i`. -/
def hexC (c : Char) : Bool :=
  c.isDigit || ('a' ≤ c.toLower && c.toLower ≤ 'f')

/-- `/Checking out ([0-9a-f]+) as ([^\.]+)/i` tried at one start position:
returns the two capture groups (taken from the original-case text). -/
def gitRefAt (cs : List Char) : Option (String × String) :=
  match matchLitCI "checking out ".data cs with
  | none => none
  | some rest =>
    let (sha, rest2) := takeRun hexC rest
    if sha.isEmpty then none else
    match matchLitCI " as ".data rest2 with
    | none => none
    | some rest3 =>
      let (ref, _) := takeRun (fun c => c ≠ '.') rest3
      if ref.isEmpty then none else some (⟨sha⟩, ⟨ref⟩)

/-- Leftmost-match scan for `gitRefAt`. -/
def gitRefScan : List Char → Option (String × String)
  | [] => none
  | c :: cs =>
    match gitRefAt (c :: cs) with
    | some r => some r
    | none => gitRefScan cs

/-- `line.match(gitRefPattern)`, returning `(sha, ref)` (capture groups 1
and 2). -/
def findGitRef (line : String) : Option (String × String) := gitRefScan line.data

/-- Consume exactly `n` characters of class `p`. -/
def matchCls (p : Char → Bool) (n : Nat) (cs : List Char) : Option (List Char) :=
  if (cs.take n).length = n && (cs.take n).all p then some (cs.drop n) else none

/-- First alternative of `timePattern`:
`\d{4}-\d{2}-\d{2}T\d{2}:\d{2}:\d{2}.\d+Z` tried at one start position,
returning the number of characters matched. -/
def timeAlt1 (cs : List Char) : Option Nat := do
  let r1 ← matchCls Char.isDigit 4 cs
  let r2 ← matchLit "-".data r1
  let r3 ← matchCls Char.isDigit 2 r2
  let r4 ← matchLit "-".data r3
  let r5 ← matchCls Char.isDigit 2 r4
  let r6 ← matchLit "T".data r5
  let r7 ← matchCls Char.isDigit 2 r6
  let r8 ← matchLit ":".data r7
  let r9 ← matchCls Char.isDigit 2 r8
  let r10 ← matchLit ":".data r9
  let r11 ← matchCls Char.isDigit 2 r10
  -- the unescaped `.` of the source pattern: any one non-terminator char
  match r11 with
  | [] => none
  | c :: r12 =>
    if dotC c then
      let (ds, r13) := takeRun Char.isDigit r12
      if ds.isEmpty then none else
      match matchLit "Z".data r13 with
      | none => none
      | some r14 => some (cs.length - r14.length)
    else none

/-- Second alternative of `timePattern`:
`\d{4}-\d{2}-\d{2} \d{2}:\d{2}:\d{2}` tried at one start position. -/
def timeAlt2 (cs : List Char) : Option Nat := do
  let r1 ← matchCls Char.isDigit 4 cs
  let r2 ← matchLit "-".data r1
  let r3 ← matchCls Char.isDigit 2 r2
  let r4 ← matchLit "-".data r3
  let r5 ← matchCls Char.isDigit 2 r4
  let r6 ← matchLit " ".data r5
  let r7 ← matchCls Char.isDigit 2 r6
  let r8 ← matchLit ":".data r7
  let r9 ← matchCls Char.isDigit 2 r8
  let r10 ← matchLit ":".data r9
  let r11 ← matchCls Char.isDigit 2 r10
  some (cs.length - r11.length)

/-- `timePattern` tried at one start position (alternatives in source
order), returning the matched text. -/
def timeAt (cs : List Char) : Option String :=
  match timeAlt1 cs with
  | some n => some ⟨cs.take n⟩
  | none =>
    match timeAlt2 cs with
    | some n => some ⟨cs.take n⟩
    | none => none

/-- Leftmost-match scan for `timeAt`. -/
def timeScan : List Char → Option String
  | [] => none
  | c :: cs =>
    match timeAt (c :: cs) with
    | some r => some r
    | none => timeScan cs

/-- `line.match(timePattern)`, returning capture group 1 (the whole
alternation). -/
def findTime (line : String) : Option String := timeScan line.data

/-- Tail of `ciJobNamePattern` after `[^,]*`: `\s+on\s+([^\s]+)`, matched
deterministically (each greedy run is followed by a literal that cannot
extend it), returning capture group 2. -/
def runnerAfterA (cs : List Char) : Option String :=
  let (w1, r1) := takeRun wsC cs
  if w1.isEmpty then none else
  match matchLit "on".data r1 with
  | none => none
  | some r2 =>
    let (w2, r3) := takeRun wsC r2
    if w2.isEmpty then none else
    let (name, _) := takeRun (fun c => !c.isWhitespace) r3
    if name.isEmpty then none else some ⟨name⟩

/-- Greedy backtracking over the `[^,]*` gap of `ciJobNamePattern`: try
the longest comma-free prefix first, giving back one character at a
time. -/
def runnerTryK (rest : List Char) : Nat → Option String
  | 0 => runnerAfterA rest
  | k + 1 =>
    match runnerAfterA (rest.drop (k + 1)) with
    | some s => some s
    | none => runnerTryK rest k

/-- `/Running with gitlab-(runner|ci) [^,]*\s+on\s+([^\s]+)/` tried at one
start position. -/
def runnerAt (cs : List Char) : Option String :=
  match matchLit "Running with gitlab-".data cs with
  | none => none
  | some rest =>
    let rest2 :=
      match matchLit "runner ".data rest with
      | some r => some r
      | none => matchLit "ci ".data rest
    match rest2 with
    | none => none
    | some r =>
      runnerTryK r (takeRun (fun c => c ≠ ',') r).1.length

/-- Leftmost-match scan for `runnerAt`. -/
def runnerScan : List Char → Option String
  | [] => none
  | c :: cs =>
    match runnerAt (c :: cs) with
    | some r => some r
    | none => runnerScan cs

/-- `line.match(ciJobNamePattern)`, returning capture group 2 (the runner
identifier). -/
def findRunner (line : String) : Option String := runnerScan line.data

/-- The class `[a-z_]`. -/
def stageNameC (c : Char) : Bool := ('a' ≤ c && c ≤ 'z') || c = '_'

/-- `/section_start:[0-9:]+:([a-z_]+)/` tried at one start position.  The
greedy `[0-9:]+` run must end in the `:` that precedes the stage name
(the classes `[0-9:]` and `[a-z_]` are disjoint, so no other backtracking
into the run can succeed). -/
def stageAt (cs : List Char) : Option String :=
  match matchLit "section_start:".data cs with
  | none => none
  | some rest =>
    let (run, rest2) := takeRun (fun c => c.isDigit || c = ':') rest
    if 2 ≤ run.length && run.getLastD ' ' = ':' then
      let (st, _) := takeRun stageNameC rest2
      if st.isEmpty then none else some ⟨st⟩
    else none

/-- Leftmost-match scan for `stageAt`. -/
def stageScan : List Char → Option String
  | [] => none
  | c :: cs =>
    match stageAt (c :: cs) with
    | some r => some r
    | none => stageScan cs

/-- `line.match(stagePattern)`, returning capture group 1 (the stage
name). -/
def findStage (line : String) : Option String := stageScan line.data

/-! ### Data model -/

/-- One element of the `issues` array of `analyzeGitLabJobLogs` (a
MatchedIssue): `context` is `none` when the JS object was created without
a `context` key (the unclassified-error fallback). -/
structure Issue where
  category : String
  issue : String
  solution : String
  line : String
  context : Option String
  lineNumber : Nat
deriving DecidableEq, Repr

/-- One record of `jobContext.failureContext[category]`. -/
structure FailureRec where
  issue : String
  line : String
  lineNumber : Nat
deriving DecidableEq, Repr

/-- The `jobContext` accumulator of `analyzeGitLabJobLogs`;
`failureContext` is the insertion-ordered object keyed by category. -/
structure JobContext where
  jobStartTime : String
  jobEndTime : String
  ciJobName : String
  gitRef : String
  gitSha : String
  executionTime : Nat
  environment : String
  runners : List String
  stages : List String
  currentStage : String
  failureContext : List (String × List FailureRec)
deriving DecidableEq, Repr

/-- The initial `jobContext` object literal. -/
def initJobContext : JobContext :=
  { jobStartTime := "", jobEndTime := "", ciJobName := "", gitRef := "",
    gitSha := "", executionTime := 0, environment := "", runners := [],
    stages := [], currentStage := "", failureContext := [] }

/-! ### First pass: job-context extraction -/

/-- First-pass body for one line: job start time (first match wins). -/
def ctxStepStart (line : String) (jc : JobContext) : JobContext :=
  if jc.jobStartTime = "" then
    match findTime line with
    | some t => { jc with jobStartTime := t }
    | none => jc
  else jc

/-- First-pass body for one line: runner identity (added to the runner
set). -/
def ctxStepRunner (line : String) (jc : JobContext) : JobContext :=
  match findRunner line with
  | some r => { jc with runners := setAdd jc.runners r }
  | none => jc

/-- First-pass body for one line: git sha / ref (each match overwrites
both fields). -/
def ctxStepGit (line : String) (jc : JobContext) : JobContext :=
  match findGitRef line with
  | some (sha, ref) => { jc with gitSha := sha, gitRef := ref }
  | none => jc

/-- First-pass body for one line: pipeline stages (duplicate-free
insertion order) and current stage. -/
def ctxStepStage (line : String) (jc : JobContext) : JobContext :=
  match findStage line with
  | some s =>
      { jc with
        stages := if s ∈ jc.stages then jc.stages else jc.stages ++ [s],
        currentStage := s }
  | none => jc

/-- First-pass body for one line, docker environment hint: appended once,
guarded by a substring test on the accumulated string. -/
def ctxStepEnvDocker (line : String) (jc : JobContext) : JobContext :=
  if jsIncludes line "docker" || jsIncludes line "container" then
    if jsIncludes jc.environment "docker" then jc
    else { jc with environment := jc.environment ++ " docker" }
  else jc

/-- First-pass body for one line, kubernetes environment hint. -/
def ctxStepEnvK8s (line : String) (jc : JobContext) : JobContext :=
  if jsIncludes line "kubernetes" || jsIncludes line "k8s" then
    if jsIncludes jc.environment "kubernetes" then jc
    else { jc with environment := jc.environment ++ " kubernetes" }
  else jc

/-- First-pass body for one line, gcp environment hint. -/
def ctxStepEnvGcp (line : String) (jc : JobContext) : JobContext :=
  if jsIncludes line "google cloud" || jsIncludes line "gcloud" then
    if jsIncludes jc.environment "gcp" then jc
    else { jc with environment := jc.environment ++ " gcp" }
  else jc

/-- First-pass body for one line: the three environment-hint blocks in
source order. -/
def ctxStepEnv (line : String) (jc : JobContext) : JobContext :=
  ctxStepEnvGcp line (ctxStepEnvK8s line (ctxStepEnvDocker line jc))

/-- First-pass body for one line: job end time (last match wins). -/
def ctxStepEnd (line : String) (jc : JobContext) : JobContext :=
  match findTime line with
  | some t => { jc with jobEndTime := t }
  | none => jc

/-- The whole first-pass loop body, in source order. -/
def ctxStep (line : String) (jc : JobContext) : JobContext :=
  ctxStepEnd line (ctxStepEnv line (ctxStepStage line (ctxStepGit line
    (ctxStepRunner line (ctxStepStart line jc)))))

/-- The first pass over all lines. -/
def ctxPass : List String → JobContext → JobContext
  | [], jc => jc
  | line :: rest, jc => ctxPass rest (ctxStep line jc)

/-! ### Second pass: classification, technology detection, issue matching -/

/-- State threaded through the second pass of `analyzeGitLabJobLogs`. -/
structure ScanState where
  errorLines : List String
  warningLines : List String
  infoLines : List String
  issues : List Issue
  technologies : List String
  detectedStage : String
  stageContext : String
  failureContext : List (String × List FailureRec)
deriving DecidableEq, Repr

/-- Initial second-pass state (`detectedStage` starts as "unknown"). -/
def initScanState : ScanState :=
  { errorLines := [], warningLines := [], infoLines := [], issues := [],
    technologies := [], detectedStage := "unknown", stageContext := "",
    failureContext := [] }

/-- One entry of the `stagePatterns` table: the lower-cased literal
alternatives of the `/i` pattern, the stage and its context. -/
structure StageRule where
  alts : List String
  stage : String
  context : String

/-- The `stagePatterns` table of the second pass. -/
def stageRules : List StageRule := [
  ⟨["building", "build stage", "build step", "building image", "docker build"], "build", "build"⟩,
  ⟨["testing", "test stage", "running tests", "test step", "test suite", "test runner"], "test", "test"⟩,
  ⟨["deploying", "deployment", "deploy stage", "releasing", "promotion", "promote to"], "deploy", "deployment"⟩,
  ⟨["linting", "lint check", "code quality", "quality gate", "sonar"], "lint", "code quality"⟩,
  ⟨["security scan", "vulnerability", "cve", "snyk", "owasp"], "security", "security"⟩,
  ⟨["terraform plan", "terraform init", "terraform apply", "tf apply"], "infrastructure", "infrastructure"⟩]

/-- `stageDef.pattern.test(lowerLine)` for one `stagePatterns` entry. -/
def stageRuleTest (r : StageRule) (lowerLine : String) : Bool :=
  r.alts.any fun a => jsIncludes lowerLine a

/-- The `for (const stageDef of stagePatterns)` loop: every matching rule
overwrites, so the last matching rule of the table wins for this line. -/
def stagePass : List StageRule → String → ScanState → ScanState
  | [], _, st => st
  | r :: rs, lowerLine, st =>
      stagePass rs lowerLine
        (if stageRuleTest r lowerLine then
          { st with detectedStage := r.stage, stageContext := r.context }
        else st)

/-- Enhanced stage detection for one line. -/
def scanStepStage (lowerLine : String) (st : ScanState) : ScanState :=
  stagePass stageRules lowerLine st

/-- Enhanced technology detection for one (lower-cased) line. -/
def techStep (lowerLine : String) (ts : List String) : List String :=
  let ts := if jsIncludes lowerLine "docker" then setAdd ts "docker" else ts
  let ts := if jsIncludes lowerLine "kubectl" || jsIncludes lowerLine "kubernetes" ||
               jsIncludes lowerLine " k8s " then setAdd ts "kubernetes" else ts
  let ts := if jsIncludes lowerLine "terraform" || jsIncludes lowerLine " tf " then
      setAdd ts "terraform" else ts
  let ts := if jsIncludes lowerLine "gcloud" || jsIncludes lowerLine "gsutil" ||
               jsIncludes lowerLine "google cloud" then setAdd ts "gcp" else ts
  let ts := if jsIncludes lowerLine "npm " then setAdd ts "npm" else ts
  let ts := if jsIncludes lowerLine "yarn " then setAdd ts "yarn" else ts
  let ts := if jsIncludes lowerLine "python" || jsIncludes lowerLine "pip " then
      setAdd ts "python" else ts
  let ts := if jsIncludes lowerLine "gradle" || jsIncludes lowerLine "mvn " ||
               jsIncludes lowerLine "java " then setAdd ts "java" else ts
  let ts := if jsIncludes lowerLine "go " || jsIncludes lowerLine "golang" then
      setAdd ts "golang" else ts
  if jsIncludes lowerLine "dotnet" || jsIncludes lowerLine "csharp" ||
     jsIncludes lowerLine ".net" then setAdd ts "dotnet" else ts

/-- The error-severity keyword test on the lower-cased line. -/
def isErrorLower (lowerLine : String) : Bool :=
  jsIncludes lowerLine "error" || jsIncludes lowerLine "exception" ||
  jsIncludes lowerLine "failed" || jsIncludes lowerLine "fatal" ||
  jsIncludes lowerLine "panic"

/-- A line is an error line iff its lower-cased text contains one of the
error-severity keywords. -/
def isErrorLine (line : String) : Bool := isErrorLower (lowerStr line)

/-- The warning-severity keyword test on the lower-cased line. -/
def isWarningLower (lowerLine : String) : Bool :=
  jsIncludes lowerLine "warning" || jsIncludes lowerLine "warn"

/-- The info-severity keyword test on the lower-cased line. -/
def isInfoLower (lowerLine : String) : Bool :=
  jsIncludes lowerLine "info" || jsIncludes lowerLine "notice"

/-- Append a failure record under its category, in insertion order of
categories (JS object key order). -/
def fcAdd (fc : List (String × List FailureRec)) (category : String)
    (rec : FailureRec) : List (String × List FailureRec) :=
  if fc.any (fun p => p.1 = category) then
    fc.map fun p => if p.1 = category then (p.1, p.2 ++ [rec]) else p
  else fc ++ [(category, [rec])]

/-- Catalog matching for one error line: for every category, the first
matching rule (if any, `find?` being the `break` of the inner loop)
appends one issue and one failure record; a line can contribute once per
category. -/
def matchLine : Catalog → String → String → Nat → ScanState → ScanState
  | [], _, _, _, st => st
  | p :: cat, line, lineContext, i, st =>
      matchLine cat line lineContext i
        (match p.2.find? (fun r => r.test line) with
         | some r =>
           { st with
             issues := st.issues ++
               [⟨p.1, r.issue, r.solution, line, some lineContext, i⟩],
             failureContext := fcAdd st.failureContext p.1 ⟨r.issue, line, i⟩ }
         | none => st)

/-- Severity classification and issue matching for one line. -/
def scanStepSeverity (cat : Catalog) (i : Nat) (line : String)
    (lowerLine lineContext : String) (st : ScanState) : ScanState :=
  if isErrorLower lowerLine then
    matchLine cat line lineContext i { st with errorLines := st.errorLines ++ [line] }
  else if isWarningLower lowerLine then
    { st with warningLines := st.warningLines ++ [line] }
  else if isInfoLower lowerLine then
    { st with infoLines := st.infoLines ++ [line] }
  else st

/-- Technology detection applied to the scan state. -/
def scanStepTech (lowerLine : String) (st : ScanState) : ScanState :=
  { st with technologies := techStep lowerLine st.technologies }

/-- The whole second-pass loop body for line `i` with its surrounding
lines. -/
def scanStep (cat : Catalog) (i : Nat) (prev line next : String)
    (st : ScanState) : ScanState :=
  let lowerLine := lowerStr line
  let lineContext := trimStr (prev ++ "\n" ++ line ++ "\n" ++ next)
  scanStepSeverity cat i line lowerLine lineContext
    (scanStepTech lowerLine (scanStepStage lowerLine st))

/-- The second pass: `prev` is the line before the current one (`""` at
index 0), the next line is the head of the remaining list (`""` at the
end), exactly as `lines[i-1]` / `lines[i+1]` evaluate in the source. -/
def scanLines (cat : Catalog) : Nat → String → List String → ScanState → ScanState
  | _, _, [], st => st
  | i, prev, line :: rest, st =>
      scanLines cat (i + 1) line rest
        (scanStep cat i prev line (rest.headD "") st)

/-! ### Post-processing helpers -/

/-- `/exit code [1-9]/i.test(errorLine)` on the lower-cased character
list: an occurrence of `"exit code "` followed by a digit 1–9. -/
def exitCode19Aux : List Char → Bool
  | [] => false
  | c :: cs =>
      ("exit code ".data.isPrefixOf (c :: cs) &&
        (match (c :: cs).drop 10 with
         | d :: _ => '1' ≤ d && d ≤ '9'
         | [] => false)) ||
      exitCode19Aux cs

/-- `errorLine.match(/exit code [1-9]/i)` as a Boolean test. -/
def exitCode19 (line : String) : Bool := exitCode19Aux (lowerStr line).data

/-- `/exit code [^0]/i.test(line)`: an occurrence of `"exit code "`
followed by any character other than `'0'`. -/
def exitCodeNonZeroAux : List Char → Bool
  | [] => false
  | c :: cs =>
      ("exit code ".data.isPrefixOf (c :: cs) &&
        (match (c :: cs).drop 10 with
         | d :: _ => d ≠ '0'
         | [] => false)) ||
      exitCodeNonZeroAux cs

/-- `line.match(/exit code [^0]/i)` as a Boolean test. -/
def exitCodeNonZero (line : String) : Bool :=
  exitCodeNonZeroAux (lowerStr line).data

/-- The heuristic score of one error line in the unclassified-error
fallback. -/
def scoreErrorLine (errorLine : String) : Nat :=
  let s := 0
  let s := if jsIncludes (lowerStr errorLine) "error:" then s + 5 else s
  let s := if jsIncludes (lowerStr errorLine) "exception" then s + 4 else s
  let s := if jsIncludes (lowerStr errorLine) "failed" then s + 3 else s
  let s := if jsIncludes (lowerStr errorLine) "fatal" then s + 3 else s
  if exitCode19 errorLine then s + 5 else s

/-- The fallback selection loop: starting from the default line and score
0, a line replaces the current best only when its score is strictly
larger. -/
def pickBestGo : List String → String → Nat → String × Nat
  | [], b, s => (b, s)
  | l :: ls, b, s =>
      if s < scoreErrorLine l then pickBestGo ls l (scoreErrorLine l)
      else pickBestGo ls b s

/-- `bestErrorLine` of the unclassified-error fallback: the default is
the last error line. -/
def pickBestErrorLine (errorLines : List String) : String :=
  (pickBestGo errorLines (errorLines.getLastD "") 0).1

/-- The synthesized fallback issue appended when no rule matched despite
error lines being present (note: `lineNumber` is `errorLines.indexOf`,
the position inside the error-line list). -/
def unclassifiedIssue (errorLines : List String) : Issue :=
  let bestErrorLine := pickBestErrorLine errorLines
  ⟨"general", "Unclassified error detected",
   "Review the error details and check your pipeline configuration",
   bestErrorLine, none, errorLines.indexOf bestErrorLine⟩

/-- `categoryPriority` table of `prioritizeIssues` (missing categories
score 0 via the `|| 0` default). -/
def categoryPriority (c : String) : Nat :=
  if c = "docker" then 7
  else if c = "kubernetes" then 8
  else if c = "terraform" then 6
  else if c = "gcp" then 9
  else if c = "npm" then 5
  else if c = "python" then 5
  else if c = "java" then 5
  else if c = "general" then 3
  else 0

/-- `a` sorts no later than `b` under the comparator of
`prioritizeIssues`: strictly larger line number first, then larger
category priority. -/
def issueLE (a b : Issue) : Prop :=
  b.lineNumber < a.lineNumber ∨
    (a.lineNumber = b.lineNumber ∧ categoryPriority b.category ≤ categoryPriority a.category)

instance : DecidableRel issueLE := fun a b => by
  unfold issueLE; infer_instance

/-- `prioritizeIssues`: a stable comparator sort of the issue list (JS
`Array.prototype.sort` is stable, as is insertion sort). -/
def prioritizeIssues (issues : List Issue) : List Issue :=
  List.insertionSort issueLE issues

/-- `dynamic_insights` / the result of `analyzeFinalJobContext`
(`errorClusters` is declared but never filled by the source). -/
structure DynamicInsights where
  failurePatterns : List String
  errorClusters : List String
  recommendedActions : List String
deriving DecidableEq, Repr

/-- `analyzeFinalJobContext` (the `jobContext` parameter is accepted but
never read by the source body). -/
def analyzeFinalJobContext (_jobContext : JobContext) (issues : List Issue)
    (technologies : List String) (errorCount : Nat) : DynamicInsights :=
  let failurePatterns : List String :=
    if 20 < errorCount then ["High error volume suggests systemic failure"] else []
  let errorCategories := issues.map (·.category)
  -- categoryCounts: insertion-ordered keys with total occurrence counts
  let keys := jsSetDedup errorCategories
  let countOf := fun c => (errorCategories.filter (fun x => x = c)).length
  let dm := keys.foldl
    (fun (p : String × Nat) c => if p.2 < countOf c then (c, countOf c) else p)
    ("", 0)
  let failurePatterns :=
    if dm.1 ≠ "" ∧ 3 < dm.2 then
      failurePatterns ++
        ["Multiple " ++ dm.1 ++ " errors suggest a systemic " ++ dm.1 ++ "-related issue"]
    else failurePatterns
  let ra : List String := []
  let ra :=
    if technologies.contains "docker" ∧ issues.any (·.category = "docker") then
      let ra := if issues.any (fun i => jsIncludes i.issue "image not found") then
          ra ++ ["Verify image names and registry paths in your Dockerfile and CI configuration"]
        else ra
      if issues.any (fun i => jsIncludes i.issue "permission") then
        ra ++ ["Check Docker registry credentials and permissions in your CI/CD variables"]
      else ra
    else ra
  let ra :=
    if technologies.contains "kubernetes" ∧ issues.any (·.category = "kubernetes") then
      let ra := if issues.any (fun i => jsIncludes i.issue "validation") then
          ra ++ ["Run kubectl validate on your manifests before applying them"]
        else ra
      if issues.any (fun i => jsIncludes i.issue "permission") then
        ra ++ ["Review RBAC permissions for the service account used by your CI/CD pipeline"]
      else ra
    else ra
  let ra :=
    if technologies.contains "gcp" ∧ issues.any (·.category = "gcp") then
      let ra := if issues.any (fun i => jsIncludes i.issue "permission") then
          ra ++ ["Check IAM roles for your service account and ensure it has the necessary permissions"]
        else ra
      if issues.any (fun i => jsIncludes i.issue "not found") then
        ra ++ ["Verify GCP resource names and ensure they exist in the correct project and region"]
      else ra
    else ra
  let ra :=
    if ra = [] then ["Review the detailed error logs for more specific troubleshooting guidance"]
    else ra
  ⟨failurePatterns, [], ra⟩

/-- `generateAdditionalInsights`. -/
def generateAdditionalInsights (issues : List Issue)
    (_technologies : List String) (errorLines : List String) : List String :=
  let ins : List String := []
  let ins :=
    if errorLines.any (fun l => jsIncludes l "timeout" || jsIncludes l "timed out") then
      ins ++ ["Network or resource timeouts detected - check operation timeout settings or network connectivity"]
    else ins
  let ins :=
    if errorLines.any (fun l => jsIncludes (lowerStr l) "memory" &&
        (jsIncludes l "out" || jsIncludes l "insufficient")) then
      ins ++ ["Memory resource constraints detected - consider increasing memory limits for your job"]
    else ins
  let ins :=
    if errorLines.any (fun l => exitCodeNonZero l) then
      ins ++ ["Non-zero exit codes indicate command failures - check command syntax and error handling"]
    else ins
  let ins :=
    if issues.any (fun i => jsIncludes (lowerStr i.line) "permission" ||
        jsIncludes (lowerStr i.line) "access denied") then
      ins ++ ["Permission issues detected - verify access rights across all resources used in the pipeline"]
    else ins
  let ins :=
    if errorLines.any (fun l => jsIncludes (lowerStr l) "version" &&
        jsIncludes (lowerStr l) "compatibility") then
      ins ++ ["Version compatibility issues detected - check for conflicting dependency versions or API version mismatches"]
    else ins
  jsSetDedup ins

/-- The solutions accumulated by `generateSmartSolutions` up to and
including the dynamic-analysis recommendations (the `if (dynamicAnalysis
&& dynamicAnalysis.recommendedActions)` guard of the source is always
true there: the analyzer passes a non-null object whose
`recommendedActions` is an array, and arrays are truthy). -/
def preFallbackSolutions (issues : List Issue) (dynamicAnalysis : DynamicInsights) :
    List String :=
  let solutions := issues.map (·.solution)
  let solutions :=
    if issues ≠ [] then
      let categories := issues.map (·.category)
      let s := solutions
      let s :=
        if categories.contains "docker" ∧
           (issues.filter (·.category = "docker")).any
             (fun i => jsIncludes i.issue "authentication" || jsIncludes i.issue "unauthorized") then
          s ++ ["Verify Docker registry credentials are correctly configured in CI/CD secrets"]
        else s
      let s :=
        if categories.contains "kubernetes" ∧
           (issues.filter (·.category = "kubernetes")).any
             (fun i => jsIncludes i.issue "validation") then
          s ++ ["Use a Kubernetes linter or validator to check manifests before applying"]
        else s
      if categories.contains "gcp" ∧
         (issues.filter (·.category = "gcp")).any
           (fun i => jsIncludes i.issue "permission") then
        s ++ ["Run 'gcloud projects get-iam-policy' to audit permissions for your service account"]
      else s
    else solutions
  solutions ++ dynamicAnalysis.recommendedActions

/-- The full solutions list of `generateSmartSolutions` before the final
deduplication, including the two fallback branches that fire when the
list is still empty. -/
def rawSolutions (issues : List Issue) (technologies : List String)
    (dynamicAnalysis : DynamicInsights) : List String :=
  let solutions := preFallbackSolutions issues dynamicAnalysis
  let solutions :=
    if solutions = [] then
      let s := solutions
      let s := if technologies.contains "docker" then
          s ++ ["Verify your Dockerfile syntax and build configuration"] else s
      let s := if technologies.contains "kubernetes" then
          s ++ ["Check your Kubernetes manifests for syntax errors and ensure proper RBAC permissions"] else s
      let s := if technologies.contains "gcp" then
          s ++ ["Ensure your GCP service account has sufficient permissions for the operations"] else s
      if technologies.contains "terraform" then
        s ++ ["Validate your Terraform configuration and check for state issues"] else s
    else solutions
  if solutions = [] then
    solutions ++ ["Review the full logs to understand the specific error context",
      "Check the job configuration in .gitlab-ci.yml for potential syntax or configuration issues"]
  else solutions

/-- `generateSmartSolutions`. -/
def generateSmartSolutions (issues : List Issue) (technologies : List String)
    (dynamicAnalysis : DynamicInsights) : List String :=
  jsSetDedup (rawSolutions issues technologies dynamicAnalysis)

/-! ### Report assembly -/

/-- An element of `potentialRootCauses`. -/
structure RootCause where
  category : String
  issue : String
deriving DecidableEq, Repr

/-- The `contextualInsights` object of the report. -/
structure ContextualInsights where
  failureStage : String
  stageContext : String
  technologiesDetected : List String
  potentialRootCauses : List RootCause
  commonPitfalls : List String
  failurePatterns : List String
  recommendedActions : List String
deriving DecidableEq, Repr

/-- The `job_metadata` object of the report. -/
structure JobMetadata where
  start_time : String
  end_time : String
  git_ref : String
  git_sha : String
  runners : List String
  stages : List String
deriving DecidableEq, Repr

/-- The structured analysis result returned by `analyzeGitLabJobLogs`. -/
structure AnalysisReport where
  error_count : Nat
  warning_count : Nat
  info_count : Nat
  errors : List String
  warnings : List String
  root_causes : List String
  identified_issues : List Issue
  suggestions : List String
  job_status : String
  contextual_analysis : ContextualInsights
  job_metadata : JobMetadata
  dynamic_insights : DynamicInsights
deriving DecidableEq, Repr

/-- The technology-specific `commonPitfalls` blocks of the analyzer
(lines 570–608 of the source), followed by `generateAdditionalInsights`. -/
def commonPitfallsOf (technologies : List String) (issues : List Issue)
    (errorLines : List String) : List String :=
  let cp : List String := []
  let cp :=
    if technologies.contains "gcp" then
      let cp := if issues.any (fun i => i.category = "gcp" && jsIncludes i.issue "permission") then
          cp ++ ["GCP deployments often fail due to IAM permission issues - verify service account roles"]
        else cp
      let cp := if issues.any (fun i => jsIncludes i.line "API") then
          cp ++ ["Ensure you've activated the required APIs in your GCP project"]
        else cp
      if issues.any (fun i => jsIncludes i.line "quota") then
        cp ++ ["Check for quota limits that might be affecting your deployment"]
      else cp
    else cp
  let cp :=
    if technologies.contains "kubernetes" then
      let cp := if issues.any (fun i => jsIncludes i.line "quota" || jsIncludes i.line "capacity") then
          cp ++ ["Namespace restrictions or resource quotas could be limiting your deployment"]
        else cp
      let cp := if issues.any (fun i => jsIncludes i.line "version" || jsIncludes i.line "schema") then
          cp ++ ["Verify that your Kubernetes manifests are compatible with the cluster version"]
        else cp
      if issues.any (fun i => jsIncludes i.line "webhook" || jsIncludes i.line "admission") then
        cp ++ ["Custom admission controllers might be blocking certain configurations"]
      else cp
    else cp
  cp ++ generateAdditionalInsights issues technologies errorLines

/-- `analyzeGitLabJobLogs`, parametrised by the rule catalog (the source
captures the `patterns` table from its own scope; every other part of the
computation is independent of which catalog is supplied). -/
def analyzeWithCatalog (cat : Catalog) (logs : String) : AnalysisReport :=
  let lines := splitLines logs
  -- first pass: job context
  let jobContext := ctxPass lines initJobContext
  let jobContext := { jobContext with environment := trimStr jobContext.environment }
  -- second pass: classification, technologies, issue matching
  let st := scanLines cat 0 "" lines initScanState
  let jobContext := { jobContext with failureContext := st.failureContext }
  let errorLines := st.errorLines
  let dynamicAnalysis := analyzeFinalJobContext jobContext st.issues st.technologies errorLines.length
  -- unclassified-error fallback
  let issues :=
    if st.issues = [] ∧ 0 < errorLines.length then
      st.issues ++ [unclassifiedIssue errorLines]
    else st.issues
  let solutions := generateSmartSolutions issues st.technologies dynamicAnalysis
  let prioritizedIssues := prioritizeIssues issues
  let contextualInsights : ContextualInsights :=
    { failureStage := st.detectedStage,
      stageContext := st.stageContext,
      technologiesDetected := st.technologies,
      potentialRootCauses :=
        (prioritizedIssues.take 3).map fun i => ⟨i.category, i.issue⟩,
      commonPitfalls := commonPitfallsOf st.technologies issues errorLines,
      failurePatterns := dynamicAnalysis.failurePatterns,
      recommendedActions := dynamicAnalysis.recommendedActions }
  { error_count := errorLines.length,
    warning_count := st.warningLines.length,
    info_count := st.infoLines.length,
    errors := errorLines.take 10,
    warnings := st.warningLines.take 10,
    root_causes := (prioritizedIssues.take 3).map fun i => i.category ++ ": " ++ i.issue,
    identified_issues := prioritizedIssues.take 5,
    suggestions := solutions,
    job_status := if 0 < errorLines.length then "Failed" else "Successful",
    contextual_analysis := contextualInsights,
    job_metadata :=
      { start_time := jobContext.jobStartTime,
        end_time := jobContext.jobEndTime,
        git_ref := jobContext.gitRef,
        git_sha := jobContext.gitSha,
        runners := jobContext.runners,
        stages := jobContext.stages },
    dynamic_insights := dynamicAnalysis }

/-- `analyzeGitLabJobLogs` with the source's own rule catalog. -/
def analyzeGitLabJobLogs (logs : String) : AnalysisReport :=
  analyzeWithCatalog patterns logs

/-! ## Proof layer: second-pass characterizations -/

lemma stagePass_errorLines (rs : List StageRule) (lower : String) (st : ScanState) :
    (stagePass rs lower st).errorLines = st.errorLines := by
  induction rs generalizing st with
  | nil => rfl
  | cons r rs ih =>
    simp only [stagePass]
    rw [ih]
    split <;> rfl

lemma stagePass_technologies (rs : List StageRule) (lower : String) (st : ScanState) :
    (stagePass rs lower st).technologies = st.technologies := by
  induction rs generalizing st with
  | nil => rfl
  | cons r rs ih =>
    simp only [stagePass]
    rw [ih]
    split <;> rfl

lemma stagePass_issues (rs : List StageRule) (lower : String) (st : ScanState) :
    (stagePass rs lower st).issues = st.issues := by
  induction rs generalizing st with
  | nil => rfl
  | cons r rs ih =>
    simp only [stagePass]
    rw [ih]
    split <;> rfl

lemma matchLine_errorLines (cat : Catalog) (line ctx : String) (i : Nat) (st : ScanState) :
    (matchLine cat line ctx i st).errorLines = st.errorLines := by
  induction cat generalizing st with
  | nil => rfl
  | cons p cat ih =>
    simp only [matchLine]
    rw [ih]
    cases p.2.find? (fun r => r.test line) <;> rfl

lemma matchLine_technologies (cat : Catalog) (line ctx : String) (i : Nat) (st : ScanState) :
    (matchLine cat line ctx i st).technologies = st.technologies := by
  induction cat generalizing st with
  | nil => rfl
  | cons p cat ih =>
    simp only [matchLine]
    rw [ih]
    cases p.2.find? (fun r => r.test line) <;> rfl

/-- When no rule of any category matches the line, catalog matching is a
no-op. -/
lemma matchLine_issues_of_no_match (cat : Catalog) (line ctx : String) (i : Nat)
    (st : ScanState) (h : ∀ p ∈ cat, ∀ r ∈ p.2, r.test line = false) :
    (matchLine cat line ctx i st).issues = st.issues := by
  induction cat generalizing st with
  | nil => rfl
  | cons p cat ih =>
    simp only [matchLine]
    have hfind : p.2.find? (fun r => r.test line) = none := by
      rw [List.find?_eq_none]
      intro r hr
      simp [h p (by simp) r hr]
    rw [hfind, ih]
    intro q hq r hr
    exact h q (by simp [hq]) r hr

lemma scanStep_errorLines (cat : Catalog) (i : Nat) (prev line next : String)
    (st : ScanState) :
    (scanStep cat i prev line next st).errorLines =
      st.errorLines ++ (if isErrorLine line then [line] else []) := by
  unfold scanStep scanStepSeverity scanStepTech isErrorLine
  by_cases he : isErrorLower (lowerStr line)
  · simp only [he, if_true, matchLine_errorLines, stagePass_errorLines, scanStepStage]
  · simp only [he, if_false, Bool.false_eq_true]
    split
    · simp [scanStepStage, stagePass_errorLines]
    split
    · simp [scanStepStage, stagePass_errorLines]
    · simp [scanStepStage, stagePass_errorLines]

lemma scanStep_technologies (cat : Catalog) (i : Nat) (prev line next : String)
    (st : ScanState) :
    (scanStep cat i prev line next st).technologies =
      techStep (lowerStr line) st.technologies := by
  unfold scanStep scanStepSeverity scanStepTech
  by_cases he : isErrorLower (lowerStr line)
  · simp only [he, if_true, matchLine_technologies, scanStepStage, stagePass_technologies]
  · simp only [he, if_false, Bool.false_eq_true]
    split
    · simp [scanStepStage, stagePass_technologies]
    split
    · simp [scanStepStage, stagePass_technologies]
    · simp [scanStepStage, stagePass_technologies]

/-- The error-line accumulator of the second pass collects exactly the
lines satisfying the severity keyword test, in order. -/
lemma scanLines_errorLines (cat : Catalog) (ls : List String) (i : Nat)
    (prev : String) (st : ScanState) :
    (scanLines cat i prev ls st).errorLines =
      st.errorLines ++ ls.filter isErrorLine := by
  induction ls generalizing i prev st with
  | nil => simp [scanLines]
  | cons line rest ih =>
    simp only [scanLines]
    rw [ih, scanStep_errorLines]
    by_cases h : isErrorLine line <;> simp [List.filter_cons, h]

/-- The technology accumulator of the second pass is a fold of `techStep`
over the lower-cased lines. -/
lemma scanLines_technologies (cat : Catalog) (ls : List String) (i : Nat)
    (prev : String) (st : ScanState) :
    (scanLines cat i prev ls st).technologies =
      ls.foldl (fun ts l => techStep (lowerStr l) ts) st.technologies := by
  induction ls generalizing i prev st with
  | nil => simp [scanLines]
  | cons line rest ih =>
    simp only [scanLines, List.foldl_cons]
    rw [ih, scanStep_technologies]

/-- **C1.** For every rule catalog and every input log text, the
`error_count` field of the returned report equals the number of lines
whose lower-cased text contains one of the substrings `"error"`,
`"exception"`, `"failed"`, `"fatal"`, `"panic"`; the quantification over
the catalog makes the count's independence from issue matching explicit. -/
theorem claim_C1 (cat : Catalog) (logs : String) :
    (analyzeGitLabJobLogs logs).error_count =
      ((splitLines logs).filter isErrorLine).length ∧
    (analyzeWithCatalog cat logs).error_count =
      ((splitLines logs).filter isErrorLine).length := by
  constructor <;>
  · show (scanLines _ 0 "" (splitLines logs) initScanState).errorLines.length = _
    rw [scanLines_errorLines]
    simp [initScanState]

lemma analyzeWithCatalog_job_status (cat : Catalog) (logs : String) :
    ((analyzeWithCatalog cat logs).job_status = "Failed" ↔
      0 < (analyzeWithCatalog cat logs).error_count) ∧
    ((analyzeWithCatalog cat logs).job_status = "Successful" ↔
      (analyzeWithCatalog cat logs).error_count = 0) := by
  have hs : (analyzeWithCatalog cat logs).job_status =
      (if 0 < (scanLines cat 0 "" (splitLines logs) initScanState).errorLines.length
       then "Failed" else "Successful") := rfl
  have hc : (analyzeWithCatalog cat logs).error_count =
      (scanLines cat 0 "" (splitLines logs) initScanState).errorLines.length := rfl
  rw [hs, hc]
  by_cases h : 0 < (scanLines cat 0 "" (splitLines logs) initScanState).errorLines.length
  · rw [if_pos h]
    exact ⟨⟨fun _ => h, fun _ => rfl⟩,
      ⟨fun hbad => absurd hbad (by decide), fun hz => by omega⟩⟩
  · rw [if_neg h]
    exact ⟨⟨fun hbad => absurd hbad (by decide), fun hp => absurd hp h⟩,
      ⟨fun _ => by omega, fun _ => rfl⟩⟩

/-- **C2.** For every input log text, `job_status` is `"Failed"` iff
`error_count > 0`, and `"Successful"` otherwise; the same holds under any
rule catalog, so the verdict is independent of issue matching. -/
theorem claim_C2 (cat : Catalog) (logs : String) :
    ((analyzeGitLabJobLogs logs).job_status = "Failed" ↔
      0 < (analyzeGitLabJobLogs logs).error_count) ∧
    ((analyzeGitLabJobLogs logs).job_status = "Successful" ↔
      (analyzeGitLabJobLogs logs).error_count = 0) ∧
    ((analyzeWithCatalog cat logs).job_status = "Failed" ↔
      0 < (analyzeWithCatalog cat logs).error_count) :=
  ⟨(analyzeWithCatalog_job_status patterns logs).1,
   (analyzeWithCatalog_job_status patterns logs).2,
   (analyzeWithCatalog_job_status cat logs).1⟩

/-! ## Proof layer: technology monotonicity -/

lemma setAdd_extends (ts : List String) (x : String) : ts ⊆ setAdd ts x := by
  unfold setAdd
  split
  · exact fun a ha => ha
  · exact fun a ha => List.mem_append_left _ ha

lemma techStep_extends (lower : String) (ts : List String) : ts ⊆ techStep lower ts := by
  have key : ∀ (c : Prop) [Decidable c] (x : String) (a b : List String),
      a ⊆ b → a ⊆ (if c then setAdd b x else b) := by
    intro c _ x a b h
    split
    · exact h.trans (setAdd_extends b x)
    · exact h
  unfold techStep
  repeat apply key _ _
  exact List.Subset.refl ts

lemma foldl_techStep_extends (ls : List String) (ts : List String) :
    ts ⊆ ls.foldl (fun ts l => techStep (lowerStr l) ts) ts := by
  induction ls generalizing ts with
  | nil => exact List.Subset.refl ts
  | cons l rest ih =>
    exact (techStep_extends (lowerStr l) ts).trans (ih (techStep (lowerStr l) ts))

/-- The technology set accumulated by the second pass after scanning the
first `n` lines of the log. -/
def techAfter (logs : String) (n : Nat) : List String :=
  (scanLines patterns 0 "" ((splitLines logs).take n) initScanState).technologies

lemma techAfter_eq_foldl (logs : String) (n : Nat) :
    techAfter logs n =
      ((splitLines logs).take n).foldl (fun ts l => techStep (lowerStr l) ts) [] := by
  unfold techAfter
  rw [scanLines_technologies]
  rfl

/-- **C7.** Technology detection is monotonic over the scan: each
technology in the detected set after scanning a prefix of the line
sequence is still there after scanning any longer prefix, and is in the
report's `technologiesDetected` list. -/
theorem claim_C7 (logs : String) (n m : Nat) (h : n ≤ m) :
    techAfter logs n ⊆ techAfter logs m ∧
    techAfter logs n ⊆
      (analyzeGitLabJobLogs logs).contextual_analysis.technologiesDetected := by
  have split_fold : ∀ (xs ys : List String),
      xs.foldl (fun ts l => techStep (lowerStr l) ts) ([] : List String) ⊆
        (xs ++ ys).foldl (fun ts l => techStep (lowerStr l) ts) [] := by
    intro xs ys
    rw [List.foldl_append]
    exact foldl_techStep_extends ys _
  constructor
  · rw [techAfter_eq_foldl, techAfter_eq_foldl]
    have htk : (splitLines logs).take m =
        (splitLines logs).take n ++ ((splitLines logs).take m).drop n := by
      conv_lhs => rw [← List.take_append_drop n ((splitLines logs).take m)]
      rw [List.take_take, Nat.min_eq_left h]
    rw [htk]
    exact split_fold _ _
  · have htd : (analyzeGitLabJobLogs logs).contextual_analysis.technologiesDetected =
        (scanLines patterns 0 "" (splitLines logs) initScanState).technologies := rfl
    rw [htd, techAfter_eq_foldl, scanLines_technologies]
    have hsplit : splitLines logs =
        (splitLines logs).take n ++ (splitLines logs).drop n :=
      (List.take_append_drop n (splitLines logs)).symm
    conv_rhs => rw [hsplit]
    exact split_fold _ _

/-- Witness for C7 at a concrete log and prefix pair. -/
theorem claim_C7_witness :
    1 ≤ 2 ∧
    (techAfter "docker x\nkubectl y" 1 ⊆ techAfter "docker x\nkubectl y" 2 ∧
     techAfter "docker x\nkubectl y" 1 ⊆
       (analyzeGitLabJobLogs "docker x\nkubectl y").contextual_analysis.technologiesDetected) :=
  ⟨by decide, claim_C7 "docker x\nkubectl y" 1 2 (by decide)⟩

/-! ## Proof layer: issue prioritization -/

instance : IsTotal Issue issueLE := by
  constructor
  intro a b
  unfold issueLE
  rcases Nat.lt_trichotomy a.lineNumber b.lineNumber with h | h | h
  · exact Or.inr (Or.inl h)
  · rcases Nat.le_total (categoryPriority a.category) (categoryPriority b.category) with hp | hp
    · exact Or.inr (Or.inr ⟨h.symm, hp⟩)
    · exact Or.inl (Or.inr ⟨h, hp⟩)
  · exact Or.inl (Or.inl h)

instance : IsTrans Issue issueLE := by
  constructor
  intro a b c hab hbc
  rcases hab with h | ⟨he, hp⟩ <;> rcases hbc with h2 | ⟨he2, hp2⟩
  · exact Or.inl (by omega)
  · exact Or.inl (by omega)
  · exact Or.inl (by omega)
  · exact Or.inr ⟨by omega, le_trans hp2 hp⟩

/-- **C8.** `prioritizeIssues` returns a permutation of its input that is
sorted by descending line index, then (on ties) by descending category
priority, with the priority table of the source
(gcp 9, kubernetes 8, docker 7, terraform 6, npm/python/java 5,
general 3, anything else 0). -/
theorem claim_C8 (issues : List Issue) :
    (prioritizeIssues issues).Perm issues ∧
    (prioritizeIssues issues).Pairwise
      (fun a b => b.lineNumber < a.lineNumber ∨
        (a.lineNumber = b.lineNumber ∧
          categoryPriority b.category ≤ categoryPriority a.category)) ∧
    (categoryPriority "gcp" = 9 ∧ categoryPriority "kubernetes" = 8 ∧
     categoryPriority "docker" = 7 ∧ categoryPriority "terraform" = 6 ∧
     categoryPriority "npm" = 5 ∧ categoryPriority "python" = 5 ∧
     categoryPriority "java" = 5 ∧ categoryPriority "general" = 3) ∧
    (∀ c : String, c ∉ ["gcp", "kubernetes", "docker", "terraform", "npm",
        "python", "java", "general"] → categoryPriority c = 0) := by
  refine ⟨List.perm_insertionSort issueLE issues,
    List.sorted_insertionSort issueLE issues, by decide, ?_⟩
  intro c hc
  simp only [List.mem_cons, List.not_mem_nil, or_false, not_or] at hc
  obtain ⟨h1, h2, h3, h4, h5, h6, h7, h8⟩ := hc
  simp [categoryPriority, h1, h2, h3, h4, h5, h6, h7, h8]

/-- Witness for C8 at a concrete issue list (and a concrete unlisted
category for the default-priority clause). -/
theorem claim_C8_witness :
    (prioritizeIssues
        [⟨"npm", "a", "sa", "l1", none, 3⟩, ⟨"gcp", "b", "sb", "l2", none, 7⟩]).Perm
      [⟨"npm", "a", "sa", "l1", none, 3⟩, ⟨"gcp", "b", "sb", "l2", none, 7⟩] ∧
    categoryPriority "yarn" = 0 :=
  ⟨(claim_C8 _).1,
   (claim_C8 []).2.2.2 "yarn" (by decide)⟩

/-! ## Proof layer: deduplication -/

/-- Deduplication as the spec describes it: keep each string at its first
occurrence, in first-seen order. -/
def firstSeenDedup : List String → List String
  | [] => []
  | x :: xs => x :: firstSeenDedup (xs.filter (fun y => y ≠ x))
termination_by l => l.length
decreasing_by
  simp only [List.length_cons]
  exact Nat.lt_succ_of_le (List.length_filter_le _ _)

lemma firstSeenDedup_nil : firstSeenDedup [] = [] := by
  rw [firstSeenDedup.eq_def]

lemma firstSeenDedup_cons (x : String) (xs : List String) :
    firstSeenDedup (x :: xs) = x :: firstSeenDedup (xs.filter (fun y => y ≠ x)) := by
  rw [firstSeenDedup.eq_def]

lemma firstSeenDedup_spec :
    ∀ (n : Nat) (l : List String), l.length ≤ n →
      (firstSeenDedup l).Nodup ∧ ∀ a, a ∈ firstSeenDedup l ↔ a ∈ l := by
  intro n
  induction n with
  | zero =>
    intro l hl
    rw [List.length_eq_zero.mp (Nat.le_zero.mp hl), firstSeenDedup_nil]
    exact ⟨List.nodup_nil, fun a => Iff.rfl⟩
  | succ n ih =>
    intro l hl
    match l with
    | [] =>
      rw [firstSeenDedup_nil]
      exact ⟨List.nodup_nil, fun a => Iff.rfl⟩
    | x :: xs =>
      rw [firstSeenDedup_cons]
      have hlen : (xs.filter (fun y => y ≠ x)).length ≤ n := by
        have := List.length_filter_le (fun y => decide (y ≠ x)) xs
        simp only [List.length_cons, Nat.succ_le_succ_iff] at hl
        omega
      obtain ⟨hnd, hmem⟩ := ih _ hlen
      refine ⟨List.nodup_cons.mpr ⟨fun hx => ?_, hnd⟩, fun a => ?_⟩
      · have := (hmem x).mp hx
        simp [List.mem_filter] at this
      · by_cases hax : a = x
        · simp [hax]
        · simp only [List.mem_cons, hax, false_or]
          rw [hmem a]
          simp [List.mem_filter, hax]

lemma jsSetDedupAux_eq (l : List String) :
    ∀ seen, jsSetDedupAux seen l = firstSeenDedup (l.filter (fun y => decide (y ∉ seen))) := by
  induction l with
  | nil =>
    intro seen
    simp [jsSetDedupAux, firstSeenDedup_nil]
  | cons x xs ih =>
    intro seen
    by_cases hx : x ∈ seen
    · rw [show jsSetDedupAux seen (x :: xs) = jsSetDedupAux seen xs by
        simp [jsSetDedupAux, hx]]
      rw [show (x :: xs).filter (fun y => decide (y ∉ seen)) =
          xs.filter (fun y => decide (y ∉ seen)) by
        simp [List.filter_cons, hx]]
      exact ih seen
    · rw [show jsSetDedupAux seen (x :: xs) = x :: jsSetDedupAux (x :: seen) xs by
        simp [jsSetDedupAux, hx]]
      rw [show (x :: xs).filter (fun y => decide (y ∉ seen)) =
          x :: xs.filter (fun y => decide (y ∉ seen)) by
        simp [List.filter_cons, hx]]
      rw [firstSeenDedup_cons, ih (x :: seen), List.filter_filter]
      have hf : List.filter (fun y => decide (y ∉ x :: seen)) xs =
          List.filter (fun y => decide (y ≠ x) && decide (y ∉ seen)) xs :=
        List.filter_congr fun a _ => by
          by_cases h1 : a = x
          · simp [h1]
          · by_cases h2 : a ∈ seen <;> simp [h1, h2]
      rw [hf]

lemma jsSetDedup_eq_firstSeenDedup (l : List String) :
    jsSetDedup l = firstSeenDedup l := by
  unfold jsSetDedup
  rw [jsSetDedupAux_eq]
  congr 1
  exact List.filter_eq_self.mpr fun a _ => by simp

lemma jsSetDedup_nodup (l : List String) : (jsSetDedup l).Nodup := by
  rw [jsSetDedup_eq_firstSeenDedup]
  exact (firstSeenDedup_spec l.length l le_rfl).1

lemma jsSetDedup_ne_nil (l : List String) (h : l ≠ []) : jsSetDedup l ≠ [] := by
  rw [jsSetDedup_eq_firstSeenDedup]
  match l with
  | [] => exact absurd rfl h
  | x :: xs =>
    rw [firstSeenDedup_cons]
    exact List.cons_ne_nil _ _

/-- **C9.** The report's suggestions list contains no duplicates, and
`generateSmartSolutions` deduplicates its underlying solutions list
keeping the first occurrence of each string in first-seen order. -/
theorem claim_C9 (logs : String) (issues : List Issue)
    (technologies : List String) (dyn : DynamicInsights) :
    (analyzeGitLabJobLogs logs).suggestions.Nodup ∧
    generateSmartSolutions issues technologies dyn =
      firstSeenDedup (rawSolutions issues technologies dyn) := by
  constructor
  · show (jsSetDedup _).Nodup
    exact jsSetDedup_nodup _
  · exact jsSetDedup_eq_firstSeenDedup _

/-! ## Proof layer: suggestions are never empty -/

lemma ite_cons_ne_nil (X : List String) (g : String) :
    (if X = [] then [g] else X) ≠ [] := by
  split
  · exact List.cons_ne_nil _ _
  · next h => exact h

lemma afjc_recommended_ne_nil (jc : JobContext) (issues : List Issue)
    (technologies : List String) (errorCount : Nat) :
    (analyzeFinalJobContext jc issues technologies errorCount).recommendedActions ≠ [] :=
  ite_cons_ne_nil _ _

lemma preFallbackSolutions_ne_nil (issues : List Issue) (dyn : DynamicInsights)
    (h : dyn.recommendedActions ≠ []) : preFallbackSolutions issues dyn ≠ [] := by
  unfold preFallbackSolutions
  intro heq
  exact h (List.append_eq_nil.mp heq).2

lemma rawSolutions_eq_preFallback (issues : List Issue) (technologies : List String)
    (dyn : DynamicInsights) (h : preFallbackSolutions issues dyn ≠ []) :
    rawSolutions issues technologies dyn = preFallbackSolutions issues dyn := by
  unfold rawSolutions
  dsimp only
  rw [if_neg h, if_neg h]

lemma generateSmartSolutions_ne_nil (issues : List Issue) (technologies : List String)
    (dyn : DynamicInsights) (h : dyn.recommendedActions ≠ []) :
    generateSmartSolutions issues technologies dyn ≠ [] := by
  have h1 := preFallbackSolutions_ne_nil issues dyn h
  have h2 := rawSolutions_eq_preFallback issues technologies dyn h1
  unfold generateSmartSolutions
  rw [h2]
  exact jsSetDedup_ne_nil _ h1

/-- **C10.** `analyzeFinalJobContext` always returns at least one
recommended action; whenever the dynamic analysis carries a recommended
action, `generateSmartSolutions` never reaches its two
empty-solutions fallback branches; hence the report's suggestions list is
never empty. -/
theorem claim_C10 (logs : String) (jc : JobContext) (ctxIssues : List Issue)
    (ctxTechs : List String) (errorCount : Nat) (issues : List Issue)
    (technologies : List String) (dyn : DynamicInsights) :
    (analyzeFinalJobContext jc ctxIssues ctxTechs errorCount).recommendedActions ≠ [] ∧
    (dyn.recommendedActions ≠ [] →
      preFallbackSolutions issues dyn ≠ [] ∧
      rawSolutions issues technologies dyn = preFallbackSolutions issues dyn) ∧
    (analyzeGitLabJobLogs logs).suggestions ≠ [] := by
  refine ⟨afjc_recommended_ne_nil jc ctxIssues ctxTechs errorCount, fun h => ?_, ?_⟩
  · exact ⟨preFallbackSolutions_ne_nil issues dyn h,
      rawSolutions_eq_preFallback issues technologies dyn
        (preFallbackSolutions_ne_nil issues dyn h)⟩
  · show generateSmartSolutions _ _ (analyzeFinalJobContext _ _ _ _) ≠ []
    exact generateSmartSolutions_ne_nil _ _ _ (afjc_recommended_ne_nil _ _ _ _)

/-- Witness for C10 at concrete inputs (discharging the inner
recommended-actions hypothesis at a concrete dynamic-insights value). -/
theorem claim_C10_witness :
    (analyzeFinalJobContext initJobContext [] [] 0).recommendedActions ≠ [] ∧
    (preFallbackSolutions [] ⟨[], [], ["a"]⟩ ≠ [] ∧
      rawSolutions [] [] ⟨[], [], ["a"]⟩ = preFallbackSolutions [] ⟨[], [], ["a"]⟩) ∧
    (analyzeGitLabJobLogs "").suggestions ≠ [] :=
  ⟨(claim_C10 "" initJobContext [] [] 0 [] [] ⟨[], [], ["a"]⟩).1,
   (claim_C10 "" initJobContext [] [] 0 [] [] ⟨[], [], ["a"]⟩).2.1 (by decide),
   (claim_C10 "" initJobContext [] [] 0 [] [] ⟨[], [], ["a"]⟩).2.2⟩

/-! ## Proof layer: the empty-log round trip -/

/-- Counterexample to C4 as stated: analyzing the empty string does NOT
return an empty suggestions list — the always-present generic
recommended action of `analyzeFinalJobContext` flows into it. -/
theorem claim_C4_counterexample :
    (analyzeGitLabJobLogs "").suggestions =
      ["Review the detailed error logs for more specific troubleshooting guidance"] ∧
    (analyzeGitLabJobLogs "").suggestions ≠ [] := by
  constructor
  · decide
  · decide

/-- **C4 (amended).** Analyzing the empty string returns a report with all
three counts zero, `job_status = "Successful"`, an empty
`identified_issues` list, default/empty job metadata, and a suggestions
list holding exactly the one generic recommended action. -/
theorem claim_C4 :
    (analyzeGitLabJobLogs "").error_count = 0 ∧
    (analyzeGitLabJobLogs "").warning_count = 0 ∧
    (analyzeGitLabJobLogs "").info_count = 0 ∧
    (analyzeGitLabJobLogs "").job_status = "Successful" ∧
    (analyzeGitLabJobLogs "").identified_issues = [] ∧
    (analyzeGitLabJobLogs "").suggestions =
      ["Review the detailed error logs for more specific troubleshooting guidance"] ∧
    (analyzeGitLabJobLogs "").job_metadata =
      { start_time := "", end_time := "", git_ref := "", git_sha := "",
        runners := [], stages := [] } := by
  refine ⟨?_, ?_, ?_, ?_, ?_, ?_, ?_⟩ <;> decide

/-! ## Proof layer: the fallback issue's line number -/

/-- **C6 (code bug).** On the log `"x\nerror"`, the synthesized fallback
issue originates from the line `"error"`, which sits at index 1 of the
split line sequence, yet its `lineNumber` field records 0: the source
stores `errorLines.indexOf(bestErrorLine)` — the position inside the
error-line list — instead of the originating line index used everywhere
else. -/
theorem claim_C6 :
    splitLines "x\nerror" = ["x", "error"] ∧
    (analyzeGitLabJobLogs "x\nerror").identified_issues =
      [{ category := "general", issue := "Unclassified error detected",
         solution := "Review the error details and check your pipeline configuration",
         line := "error", context := none, lineNumber := 0 }] ∧
    (splitLines "x\nerror").indexOf "error" = 1 := by
  refine ⟨?_, ?_, ?_⟩ <;> decide

/-! ## Proof layer: git sha / ref extraction -/

lemma ctxStepStart_git (line : String) (jc : JobContext) :
    (ctxStepStart line jc).gitSha = jc.gitSha ∧
    (ctxStepStart line jc).gitRef = jc.gitRef := by
  unfold ctxStepStart
  split
  · cases findTime line <;> exact ⟨rfl, rfl⟩
  · exact ⟨rfl, rfl⟩

lemma ctxStepRunner_git (line : String) (jc : JobContext) :
    (ctxStepRunner line jc).gitSha = jc.gitSha ∧
    (ctxStepRunner line jc).gitRef = jc.gitRef := by
  unfold ctxStepRunner
  cases findRunner line <;> exact ⟨rfl, rfl⟩

lemma ctxStepGit_git (line : String) (jc : JobContext) :
    (ctxStepGit line jc).gitSha =
      (match findGitRef line with
       | some p => p.1
       | none => jc.gitSha) ∧
    (ctxStepGit line jc).gitRef =
      (match findGitRef line with
       | some p => p.2
       | none => jc.gitRef) := by
  unfold ctxStepGit
  cases findGitRef line with
  | none => exact ⟨rfl, rfl⟩
  | some p => exact ⟨rfl, rfl⟩

lemma ctxStepStage_git (line : String) (jc : JobContext) :
    (ctxStepStage line jc).gitSha = jc.gitSha ∧
    (ctxStepStage line jc).gitRef = jc.gitRef := by
  unfold ctxStepStage
  cases findStage line <;> exact ⟨rfl, rfl⟩

lemma ctxStepEnvDocker_git (line : String) (jc : JobContext) :
    (ctxStepEnvDocker line jc).gitSha = jc.gitSha ∧
    (ctxStepEnvDocker line jc).gitRef = jc.gitRef := by
  unfold ctxStepEnvDocker
  split
  · split <;> exact ⟨rfl, rfl⟩
  · exact ⟨rfl, rfl⟩

lemma ctxStepEnvK8s_git (line : String) (jc : JobContext) :
    (ctxStepEnvK8s line jc).gitSha = jc.gitSha ∧
    (ctxStepEnvK8s line jc).gitRef = jc.gitRef := by
  unfold ctxStepEnvK8s
  split
  · split <;> exact ⟨rfl, rfl⟩
  · exact ⟨rfl, rfl⟩

lemma ctxStepEnvGcp_git (line : String) (jc : JobContext) :
    (ctxStepEnvGcp line jc).gitSha = jc.gitSha ∧
    (ctxStepEnvGcp line jc).gitRef = jc.gitRef := by
  unfold ctxStepEnvGcp
  split
  · split <;> exact ⟨rfl, rfl⟩
  · exact ⟨rfl, rfl⟩

lemma ctxStepEnv_git (line : String) (jc : JobContext) :
    (ctxStepEnv line jc).gitSha = jc.gitSha ∧
    (ctxStepEnv line jc).gitRef = jc.gitRef := by
  unfold ctxStepEnv
  obtain ⟨h1, h2⟩ := ctxStepEnvGcp_git line (ctxStepEnvK8s line (ctxStepEnvDocker line jc))
  obtain ⟨h3, h4⟩ := ctxStepEnvK8s_git line (ctxStepEnvDocker line jc)
  obtain ⟨h5, h6⟩ := ctxStepEnvDocker_git line jc
  rw [h1, h2, h3, h4, h5, h6]
  exact ⟨rfl, rfl⟩

lemma ctxStepEnd_git (line : String) (jc : JobContext) :
    (ctxStepEnd line jc).gitSha = jc.gitSha ∧
    (ctxStepEnd line jc).gitRef = jc.gitRef := by
  unfold ctxStepEnd
  cases findTime line <;> exact ⟨rfl, rfl⟩

lemma ctxStep_git (line : String) (jc : JobContext) :
    (ctxStep line jc).gitSha =
      (match findGitRef line with
       | some p => p.1
       | none => jc.gitSha) ∧
    (ctxStep line jc).gitRef =
      (match findGitRef line with
       | some p => p.2
       | none => jc.gitRef) := by
  unfold ctxStep
  obtain ⟨he1, he2⟩ := ctxStepEnd_git line
    (ctxStepEnv line (ctxStepStage line (ctxStepGit line (ctxStepRunner line (ctxStepStart line jc)))))
  rw [he1, he2]
  obtain ⟨hv1, hv2⟩ := ctxStepEnv_git line
    (ctxStepStage line (ctxStepGit line (ctxStepRunner line (ctxStepStart line jc))))
  rw [hv1, hv2]
  obtain ⟨hs1, hs2⟩ := ctxStepStage_git line
    (ctxStepGit line (ctxStepRunner line (ctxStepStart line jc)))
  rw [hs1, hs2]
  obtain ⟨hg1, hg2⟩ := ctxStepGit_git line (ctxStepRunner line (ctxStepStart line jc))
  rw [hg1, hg2]
  obtain ⟨hr1, hr2⟩ := ctxStepRunner_git line (ctxStepStart line jc)
  rw [hr1, hr2]
  obtain ⟨ht1, ht2⟩ := ctxStepStart_git line jc
  rw [ht1, ht2]
  exact ⟨rfl, rfl⟩

/-- The first pass leaves `(gitSha, gitRef)` at the captures of the last
line matching `gitRefPattern`, or untouched when no line matches. -/
lemma ctxPass_git (ls : List String) :
    ∀ jc : JobContext,
      ((ctxPass ls jc).gitSha, (ctxPass ls jc).gitRef) =
        ((ls.filterMap findGitRef).getLast?).getD (jc.gitSha, jc.gitRef) := by
  induction ls with
  | nil => intro jc; rfl
  | cons line rest ih =>
    intro jc
    show ((ctxPass rest (ctxStep line jc)).gitSha,
          (ctxPass rest (ctxStep line jc)).gitRef) = _
    rw [List.filterMap_cons]
    obtain ⟨hsha, href⟩ := ctxStep_git line jc
    cases hfind : findGitRef line with
    | none =>
      rw [ih (ctxStep line jc), hsha, href, hfind]
    | some p =>
      rw [ih (ctxStep line jc), hsha, href, hfind]
      cases hrest : (rest.filterMap findGitRef) with
      | nil => rfl
      | cons q t =>
        rw [List.getLast?_cons_cons]
        have : (q :: t).getLast?.isSome := by
          rw [List.getLast?_isSome]
          exact List.cons_ne_nil q t
        obtain ⟨v, hv⟩ := Option.isSome_iff_exists.mp this
        rw [hv]
        rfl

/-- Counterexample to C5 as stated: with two lines matching the
`"Checking out <sha> as <ref>"` pattern, the report carries the captures
of the SECOND matching line, not the first. -/
theorem claim_C5_counterexample :
    findGitRef "Checking out abc as ref1" = some ("abc", "ref1") ∧
    findGitRef "Checking out def as ref2" = some ("def", "ref2") ∧
    (analyzeGitLabJobLogs
        "Checking out abc as ref1\nChecking out def as ref2").job_metadata.git_sha = "def" ∧
    (analyzeGitLabJobLogs
        "Checking out abc as ref1\nChecking out def as ref2").job_metadata.git_ref = "ref2" ∧
    ("def" : String) ≠ "abc" := by
  refine ⟨?_, ?_, ?_, ?_, ?_⟩ <;> decide

/-- **C5 (amended).** For every input log with at least two lines matching
the `"Checking out <sha> as <ref>"` pattern, the `git_sha` and `git_ref`
fields of the report's job metadata are taken from the LAST such matching
line (each match overwrites the previous one). -/
theorem claim_C5 (logs : String)
    (h : 2 ≤ ((splitLines logs).filterMap findGitRef).length) :
    ∃ p : String × String,
      ((splitLines logs).filterMap findGitRef).getLast? = some p ∧
      (analyzeGitLabJobLogs logs).job_metadata.git_sha = p.1 ∧
      (analyzeGitLabJobLogs logs).job_metadata.git_ref = p.2 := by
  have hne : (splitLines logs).filterMap findGitRef ≠ [] := by
    intro he
    rw [he] at h
    simp at h
  obtain ⟨p, hp⟩ := Option.isSome_iff_exists.mp (List.getLast?_isSome.mpr hne)
  refine ⟨p, hp, ?_, ?_⟩
  · have hsha : (analyzeGitLabJobLogs logs).job_metadata.git_sha =
        (ctxPass (splitLines logs) initJobContext).gitSha := rfl
    rw [hsha]
    have := ctxPass_git (splitLines logs) initJobContext
    rw [hp] at this
    exact congrArg Prod.fst this
  · have href : (analyzeGitLabJobLogs logs).job_metadata.git_ref =
        (ctxPass (splitLines logs) initJobContext).gitRef := rfl
    rw [href]
    have := ctxPass_git (splitLines logs) initJobContext
    rw [hp] at this
    exact congrArg Prod.snd this

/-- Witness for C5 at the two-checkout log. -/
theorem claim_C5_witness :
    2 ≤ ((splitLines "Checking out abc as ref1\nChecking out def as ref2").filterMap
          findGitRef).length ∧
    ∃ p : String × String,
      ((splitLines "Checking out abc as ref1\nChecking out def as ref2").filterMap
          findGitRef).getLast? = some p ∧
      (analyzeGitLabJobLogs
          "Checking out abc as ref1\nChecking out def as ref2").job_metadata.git_sha = p.1 ∧
      (analyzeGitLabJobLogs
          "Checking out abc as ref1\nChecking out def as ref2").job_metadata.git_ref = p.2 :=
  ⟨by decide, claim_C5 _ (by decide)⟩

/-! ## Proof layer: the unclassified-error fallback -/

/-- The error lines of a log, in order: the second pass collects exactly
these (`scanLines_errorLines`). -/
def errorLinesOf (logs : String) : List String :=
  (splitLines logs).filter isErrorLine

/-- The maximum heuristic score over a list of error lines. -/
def maxScore (ls : List String) : Nat :=
  ls.foldr (fun l m => max (scoreErrorLine l) m) 0

lemma le_maxScore (ls : List String) : ∀ x ∈ ls, scoreErrorLine x ≤ maxScore ls := by
  induction ls with
  | nil => intro x hx; cases hx
  | cons l rest ih =>
    intro x hx
    rcases List.mem_cons.mp hx with h | h
    · subst h; exact le_max_left _ _
    · exact le_trans (ih x h) (le_max_right _ _)

lemma pickBestGo_no_improve (ls : List String) (b : String) (s : Nat)
    (h : ∀ l ∈ ls, scoreErrorLine l ≤ s) : pickBestGo ls b s = (b, s) := by
  induction ls generalizing b s with
  | nil => rfl
  | cons l rest ih =>
    unfold pickBestGo
    rw [if_neg (by have := h l (by simp); omega)]
    exact ih b s fun x hx => h x (by simp [hx])

lemma pickBestGo_finds_max (ls : List String) :
    ∀ (b : String) (s : Nat), s < maxScore ls →
      ∃ w, ls.find? (fun l => scoreErrorLine l = maxScore ls) = some w ∧
        pickBestGo ls b s = (w, maxScore ls) := by
  induction ls with
  | nil => intro b s h; simp [maxScore] at h
  | cons l rest ih =>
    intro b s h
    have hM : maxScore (l :: rest) = max (scoreErrorLine l) (maxScore rest) := rfl
    by_cases hl : scoreErrorLine l = maxScore (l :: rest)
    · refine ⟨l, ?_, ?_⟩
      · rw [List.find?_cons_of_pos _ (by simp [hl])]
      · unfold pickBestGo
        rw [if_pos (by omega)]
        have hrest : ∀ x ∈ rest, scoreErrorLine x ≤ scoreErrorLine l := by
          intro x hx
          have h1 := le_maxScore rest x hx
          have h2 : maxScore rest ≤ max (scoreErrorLine l) (maxScore rest) :=
            le_max_right _ _
          omega
        rw [pickBestGo_no_improve rest l (scoreErrorLine l) hrest, hl]
    · have hmax : maxScore (l :: rest) = maxScore rest := by
        rcases max_choice (scoreErrorLine l) (maxScore rest) with hc | hc
        · rw [hM] at hl; omega
        · rw [hM, hc]
      have hlt : scoreErrorLine l < maxScore rest := by
        have h1 : scoreErrorLine l ≤ max (scoreErrorLine l) (maxScore rest) :=
          le_max_left _ _
        rw [← hM, hmax] at h1
        rw [hmax] at hl
        omega
      have hfind : (l :: rest).find? (fun x => scoreErrorLine x = maxScore (l :: rest)) =
          rest.find? (fun x => scoreErrorLine x = maxScore rest) := by
        rw [List.find?_cons_of_neg _ (by simp [hmax]; omega), hmax]
      unfold pickBestGo
      by_cases hs : s < scoreErrorLine l
      · rw [if_pos hs]
        obtain ⟨w, hw1, hw2⟩ := ih l (scoreErrorLine l) hlt
        exact ⟨w, by rw [hfind, hw1], by rw [hmax, hw2]⟩
      · rw [if_neg hs]
        obtain ⟨w, hw1, hw2⟩ := ih b s (by rw [hmax] at h; exact h)
        exact ⟨w, by rw [hfind, hw1], by rw [hmax, hw2]⟩

/-- The fallback's selected line: earliest line attaining the maximum
score when some line scores above zero, the last error line otherwise. -/
lemma pickBestErrorLine_spec (E : List String) :
    (0 < maxScore E →
      E.find? (fun l => scoreErrorLine l = maxScore E) =
        some (pickBestErrorLine E)) ∧
    (maxScore E = 0 → pickBestErrorLine E = E.getLastD "") := by
  constructor
  · intro h
    obtain ⟨w, hw1, hw2⟩ := pickBestGo_finds_max E (E.getLastD "") 0 h
    unfold pickBestErrorLine
    rw [hw2, hw1]
  · intro h
    unfold pickBestErrorLine
    rw [pickBestGo_no_improve E _ 0 fun x hx => by
      have := le_maxScore E x hx; omega]

lemma scanStep_issues_pres (cat : Catalog) (i : Nat) (prev line next : String)
    (st : ScanState)
    (h : isErrorLine line = true → ∀ p ∈ cat, ∀ r ∈ p.2, r.test line = false) :
    (scanStep cat i prev line next st).issues = st.issues := by
  unfold scanStep scanStepSeverity scanStepTech
  by_cases he : isErrorLower (lowerStr line)
  · simp only [he, if_true]
    rw [matchLine_issues_of_no_match _ _ _ _ _ (h he)]
    simp [scanStepStage, stagePass_issues]
  · simp only [he, if_false, Bool.false_eq_true]
    split
    · simp [scanStepStage, stagePass_issues]
    split
    · simp [scanStepStage, stagePass_issues]
    · simp [scanStepStage, stagePass_issues]

lemma scanLines_issues_of_no_match (cat : Catalog) (ls : List String) :
    ∀ (i : Nat) (prev : String) (st : ScanState),
      (∀ l ∈ ls, isErrorLine l = true → ∀ p ∈ cat, ∀ r ∈ p.2, r.test l = false) →
      (scanLines cat i prev ls st).issues = st.issues := by
  induction ls with
  | nil => intro i prev st _; rfl
  | cons line rest ih =>
    intro i prev st h
    simp only [scanLines]
    rw [ih _ _ _ fun l hl he => h l (by simp [hl]) he]
    exact scanStep_issues_pres _ _ _ _ _ _ (h line (by simp))

lemma analyze_identified_issues (cat : Catalog) (logs : String) :
    (analyzeWithCatalog cat logs).identified_issues =
      (prioritizeIssues
        (if (scanLines cat 0 "" (splitLines logs) initScanState).issues = [] ∧
            0 < (scanLines cat 0 "" (splitLines logs) initScanState).errorLines.length then
          (scanLines cat 0 "" (splitLines logs) initScanState).issues ++
            [unclassifiedIssue
              (scanLines cat 0 "" (splitLines logs) initScanState).errorLines]
        else (scanLines cat 0 "" (splitLines logs) initScanState).issues)).take 5 := rfl

/-- **C3.** When a log has at least one error line and no rule pattern
matches any of its error lines, the report's issues list is exactly one
synthesized "Unclassified error detected" entry whose selected line is
the earliest error line attaining the maximum heuristic score
(`scoreErrorLine`), the last error line when no line scores above
zero. -/
theorem claim_C3 (logs : String)
    (hNoMatch : ∀ l ∈ errorLinesOf logs, ∀ p ∈ patterns, ∀ r ∈ p.2, r.test l = false)
    (hErr : errorLinesOf logs ≠ []) :
    (analyzeGitLabJobLogs logs).identified_issues =
      [unclassifiedIssue (errorLinesOf logs)] ∧
    (unclassifiedIssue (errorLinesOf logs)).category = "general" ∧
    (unclassifiedIssue (errorLinesOf logs)).issue = "Unclassified error detected" ∧
    (0 < maxScore (errorLinesOf logs) →
      (errorLinesOf logs).find?
          (fun l => scoreErrorLine l = maxScore (errorLinesOf logs)) =
        some (unclassifiedIssue (errorLinesOf logs)).line) ∧
    (maxScore (errorLinesOf logs) = 0 →
      (unclassifiedIssue (errorLinesOf logs)).line =
        (errorLinesOf logs).getLastD "") := by
  have hScanE : (scanLines patterns 0 "" (splitLines logs) initScanState).errorLines =
      errorLinesOf logs := by
    rw [scanLines_errorLines]
    rfl
  have hScanI : (scanLines patterns 0 "" (splitLines logs) initScanState).issues = [] := by
    rw [scanLines_issues_of_no_match patterns (splitLines logs) 0 "" initScanState
      fun l hl he => hNoMatch l (List.mem_filter.mpr ⟨hl, he⟩)]
    rfl
  refine ⟨?_, rfl, rfl, ?_, ?_⟩
  · show (analyzeWithCatalog patterns logs).identified_issues = _
    rw [analyze_identified_issues, hScanI, hScanE,
      if_pos ⟨rfl, List.length_pos.mpr hErr⟩]
    rfl
  · exact (pickBestErrorLine_spec (errorLinesOf logs)).1
  · exact (pickBestErrorLine_spec (errorLinesOf logs)).2

/-- Witness for C3 at a concrete log whose single error line matches no
rule. -/
theorem claim_C3_witness :
    (∀ l ∈ errorLinesOf "a\nfatal x", ∀ p ∈ patterns, ∀ r ∈ p.2, r.test l = false) ∧
    errorLinesOf "a\nfatal x" ≠ [] ∧
    (analyzeGitLabJobLogs "a\nfatal x").identified_issues =
      [unclassifiedIssue (errorLinesOf "a\nfatal x")] :=
  ⟨by decide, by decide, (claim_C3 "a\nfatal x" (by decide) (by decide)).1⟩


end LogEngine

